import Mathlib

/-!
Verification of the jb-debate repository: a Discord debate bot whose core is
the debate session state machine (src/services/debateManager.js), the
completion-client pipeline (src/services/ollama.js) and the message chunker
(src/index.js).  Remote language-model calls are modelled as explicit oracle
arguments (their outcomes are inputs to the pure step functions), and the
JavaScript `Map` registry is modelled as an insertion-ordered association
list with update-in-place semantics.
-/

namespace JbDebate

/-! ## JavaScript string primitives

Strings are Lean `String`s; the JS operations used by the source
(`toLowerCase`, `trim`, `includes`, `substring`, `replace`) are modelled on
the underlying character lists.  All inputs relevant to the claims are ASCII,
where these models agree with the JS originals. -/

/-- JS `String.prototype.toLowerCase` (ASCII range, which covers every
pattern token used by the source). -/
def jsToLower (s : String) : String := ⟨s.data.map Char.toLower⟩

/-- Whitespace characters removed by JS `trim` that occur in this system. -/
def jsIsWhite (c : Char) : Bool := c = ' ' || c = '\t' || c = '\n' || c = '\r'

/-- Remove leading and trailing whitespace from a character list. -/
def trimChars (l : List Char) : List Char :=
  ((l.dropWhile jsIsWhite).reverse.dropWhile jsIsWhite).reverse

/-- JS `String.prototype.trim`. -/
def jsTrim (s : String) : String := ⟨trimChars s.data⟩

/-- Does `pat` occur as a contiguous run inside `l`? -/
def isInfixOfChars (pat : List Char) : List Char → Bool
  | [] => pat.isEmpty
  | c :: rest => pat.isPrefixOf (c :: rest) || isInfixOfChars pat rest

/-- JS `String.prototype.includes`: substring containment. -/
def jsIncludes (s pat : String) : Bool := isInfixOfChars pat.data s.data

/-- JS `s.substring(0, n)` (prefix of length `n`; clamped like JS). -/
def strTake (s : String) (n : Nat) : String := ⟨s.data.take n⟩

/-- JS `s.substring(n)` (suffix from index `n`). -/
def strDrop (s : String) (n : Nat) : String := ⟨s.data.drop n⟩

/-- Replace the first occurrence of `pat` by `rep` in a character list,
as JS `String.prototype.replace` does with a string pattern. -/
def replaceFirstChars (pat rep : List Char) : List Char → List Char
  | [] => []
  | c :: rest =>
    if pat.isPrefixOf (c :: rest) then rep ++ (c :: rest).drop pat.length
    else c :: replaceFirstChars pat rep rest

/-- JS `s.replace(pat, rep)` (first occurrence only). -/
def jsReplace (s pat rep : String) : String :=
  ⟨replaceFirstChars pat.data rep.data s.data⟩

/-! ## Data model (src/services/debateManager.js)

`DebateSession` record, its status values, and the scoring constants. -/

/-- The three status values a debate session can take. -/
inductive Status where
  | active
  | won
  | ended
deriving DecidableEq, Repr

/-- One transcript entry (`{role, content}`). -/
structure ChatMsg where
  role : String
  content : String
deriving DecidableEq, Repr

/-- The per-session debate state created by `DebateManager.createDebate`.
Timestamps are abstract `Nat` clock readings passed in by the caller. -/
structure Debate where
  threadId : String
  participantId : String
  subject : String
  messages : List ChatMsg
  status : Status
  fallacyCount : Nat
  opponentInactiveCount : Nat
  createdAt : Nat
  lastActivity : Nat
deriving DecidableEq, Repr

/-- `FALLACY_THRESHOLD = 3` in debateManager.js. -/
def FALLACY_THRESHOLD : Nat := 3

/-- `MIN_RESPONSE_LENGTH = 20` in debateManager.js. -/
def MIN_RESPONSE_LENGTH : Nat := 20

/-! ## Non-substantive classification (DebateManager.isNonSubstantive) -/

/-- `/^(haha|hehe|rofl|xd+)$/i` — the `xd+` alternative: an `x` followed by
one or more `d`s. -/
def xdToken (m : String) : Bool :=
  match m.data with
  | 'x' :: rest => !rest.isEmpty && rest.all (· = 'd')
  | _ => false

/-- `/^\.+$/` — a nonempty string consisting only of periods. -/
def dotsToken (m : String) : Bool := !m.data.isEmpty && m.data.all (· = '.')

/-- The regex alternations of `isNonSubstantive`, applied to the already
lowercased and trimmed message.  `don'?t` makes the apostrophe optional. -/
def nonSubstantivePatterns (m : String) : Bool :=
  (m = "ok" || m = "okay" || m = "sure" || m = "whatever" || m = "fine" ||
    m = "lol" || m = "lmao" || m = "idk" || m = "nah") ||
  (m = "i dont care" || m = "i don\x27t care" || m = "i give up" ||
    m = "you win" || m = "nevermind") ||
  (m = "haha" || m = "hehe" || m = "rofl" || xdToken m) ||
  dotsToken m

/-- `DebateManager.isNonSubstantive` (debateManager.js lines 85-96): the
length guard `!message || message.length < MIN_RESPONSE_LENGTH` applies to
the raw message; the patterns are tested on `message.toLowerCase().trim()`.
The empty string (JS falsy `!message`) is covered by the length guard. -/
def isNonSubstantive (message : String) : Bool :=
  if message.length < MIN_RESPONSE_LENGTH then true
  else nonSubstantivePatterns (jsTrim (jsToLower message))

/-! ## Turn processing (DebateManager.generateResponse, non-opening path)

The two remote-model results that feed a turn — the fallacy-analysis verdict
and the generated response text — are explicit arguments, so the state
update is a pure step function.  The statements of generateResponse are
modelled in source order. -/

/-- Sentinel text the analysis prompt asks the model to return. -/
def NO_FALLACY_SENTINEL : String := "No significant fallacies"

/-- The victory marker token the system prompt tells the model to emit. -/
def VICTORY : String := "[VICTORY]"

/-- The guard `fallacyAnalysis && !fallacyAnalysis.includes('No significant
fallacies')`: JS truthiness means a `null` (absent) verdict *and* an
empty-string verdict both fail the guard. -/
def fallacyDetected (v : Option String) : Bool :=
  match v with
  | none => false
  | some s => !(s = "") && !jsIncludes s NO_FALLACY_SENTINEL

/-- Lines 51-55: bump or reset `opponentInactiveCount`. -/
def scoreInactivity (d : Debate) (opponentMessage : String) : Debate :=
  if isNonSubstantive opponentMessage then
    { d with opponentInactiveCount := d.opponentInactiveCount + 1 }
  else
    { d with opponentInactiveCount := 0 }

/-- Lines 58-62: increment `fallacyCount` when the verdict passes the guard. -/
def scoreFallacy (d : Debate) (fallacyAnalysis : Option String) : Debate :=
  if fallacyDetected fallacyAnalysis then
    { d with fallacyCount := d.fallacyCount + 1 }
  else d

/-- Lines 64-66: `if (debate.fallacyCount >= FALLACY_THRESHOLD) status = 'won'`. -/
def checkThreshold (d : Debate) : Debate :=
  if FALLACY_THRESHOLD ≤ d.fallacyCount then { d with status := Status.won }
  else d

/-- Lines 76-79: strip the victory marker from the generated text and set
`status = 'won'` when present. -/
def applyVictoryMarker (d : Debate) (response : String) : Debate × String :=
  if jsIncludes response VICTORY then
    ({ d with status := Status.won }, jsTrim (jsReplace response VICTORY ""))
  else (d, response)

/-- `DebateManager.generateResponse` for a non-opening turn
(debateManager.js lines 42-83), as a pure step: given the current session,
the opponent message, the fallacy-analysis verdict (`none` = the analysis
call returned null) and the generated response text, produce the updated
session and the text returned to the caller.  `now` is the `Date.now()`
reading stored into `lastActivity`. -/
def generateResponseStep (now : Nat) (d : Debate) (opponentMessage : String)
    (fallacyAnalysis : Option String) (response : String) : Debate × String :=
  applyVictoryMarker
    (checkThreshold
      (scoreFallacy
        (scoreInactivity { d with lastActivity := now } opponentMessage)
        fallacyAnalysis))
    response

/-- The opening path of `generateResponse` (lines 45-48): only
`lastActivity` is updated; the opening text comes straight from the
generator. -/
def openingStep (now : Nat) (d : Debate) : Debate :=
  { d with lastActivity := now }

/-- The session-level effect of `DebateManager.endDebate` (lines 34-40) on a
session present in the registry: `debate.status = 'ended'`. -/
def endDebateSession (d : Debate) : Debate :=
  { d with status := Status.ended }

/-! ## Operation sequences over one session (for the status claims) -/

/-- The operations that can touch one session's state. -/
inductive DebateOp where
  | turn (now : Nat) (msg : String) (analysis : Option String) (response : String)
  | opening (now : Nat)
  | endOp
deriving DecidableEq, Repr

/-- Apply one operation to a session. -/
def applyOp (d : Debate) : DebateOp → Debate
  | DebateOp.turn now msg analysis response =>
    (generateResponseStep now d msg analysis response).1
  | DebateOp.opening now => openingStep now d
  | DebateOp.endOp => endDebateSession d

/-- Apply a sequence of operations to a session, oldest first. -/
def runOps (d : Debate) (ops : List DebateOp) : Debate := ops.foldl applyOp d

/-! ## The session registry (`this.debates`, a JS `Map`)

A JS `Map` is an insertion-ordered key/value store; `set` updates the value
in place when the key is present (keeping its position) and appends
otherwise.  We model it as an association list with exactly that `set`. -/

/-- JS `Map.prototype.set`: update in place if the key exists, else append. -/
def jsMapSet {α : Type} : List (String × α) → String → α → List (String × α)
  | [], k, v => [(k, v)]
  | p :: rest, k, v =>
    if p.1 = k then (k, v) :: rest else p :: jsMapSet rest k v

/-- JS `Map.prototype.get`: the value stored at the key, if any. -/
def jsMapGet {α : Type} : List (String × α) → String → Option α
  | [], _ => none
  | p :: rest, k => if p.1 = k then some p.2 else jsMapGet rest k

/-- The `debates` registry: threadId keyed map of sessions. -/
abbrev Registry := List (String × Debate)

/-- The fresh session object built by `createDebate` (debateManager.js
lines 14-24). -/
def newDebate (threadId participantId subject : String) (now : Nat) : Debate :=
  { threadId := threadId
    participantId := participantId
    subject := subject
    messages := []
    status := Status.active
    fallacyCount := 0
    opponentInactiveCount := 0
    createdAt := now
    lastActivity := now }

/-- `DebateManager.createDebate` (lines 13-28): builds a fresh session and
unconditionally stores it with `this.debates.set(threadId, debate)`;
returns the stored session.  There is no duplicate check. -/
def createDebate (reg : Registry) (threadId participantId subject : String)
    (now : Nat) : Registry × Debate :=
  let debate := newDebate threadId participantId subject now
  (jsMapSet reg threadId debate, debate)

/-- `DebateManager.getDebate` (lines 30-32). -/
def getDebate (reg : Registry) (threadId : String) : Option Debate :=
  jsMapGet reg threadId

/-- `DebateManager.endDebate` (lines 34-40): if the session exists, set its
status to `'ended'` (the deferred one-hour deletion timer is outside the
step semantics). -/
def endDebate (reg : Registry) (threadId : String) : Registry :=
  match jsMapGet reg threadId with
  | some d => jsMapSet reg threadId (endDebateSession d)
  | none => reg

/-! ## Completion client (src/services/ollama.js) -/

/-- A `{title, url}` source produced by the research tools. -/
structure Source where
  title : String
  url : String
deriving DecidableEq, Repr

/-- `new Map(sources.map(s => [s.url, s]))` built by folding `set` over the
pairs, starting from the empty map. -/
def jsMapOfPairs {α : Type} (pairs : List (String × α)) : List (String × α) :=
  pairs.foldl (fun m kv => jsMapSet m kv.1 kv.2) []

/-- ollama.js lines 107-110: deduplicate the collected sources by URL with
`new Map`, take the values, and cap to 3; an empty collection yields `[]`. -/
def uniqueSources (sources : List Source) : List Source :=
  if 0 < sources.length then
    ((jsMapOfPairs (sources.map (fun s => (s.url, s)))).map (fun p => p.2)).take 3
  else []

/-- The fixed fallback sentence returned when every attempt came back
empty (ollama.js line 104). -/
def FALLBACK_RESPONSE : String :=
  "I\x27m ready to debate this topic. Present your argument and let\x27s see if it holds up to scrutiny."

/-- The outcome of one complete attempt of `chatWithTools` (one initial
model call plus, if tools were requested, one tool round and one follow-up
call): the final message content (`none` models a null content field) and
the sources collected from that attempt's tool executions. -/
structure RoundOutcome where
  content : Option String
  roundSources : List Source
deriving Repr

/-- `response.message.content?.trim()` with JS `?.`: null content behaves
like the empty string under the falsiness test. -/
def attemptText (o : RoundOutcome) : String :=
  match o.content with
  | some c => jsTrim c
  | none => ""

/-- `chatWithTools(messages, options, retries, collectedSources)`
(ollama.js lines 27-116).  The remote exchanges of each attempt are an
oracle indexed by attempt number; `attempt` is the index of the current
attempt.  An empty (or null) final text retries the whole exchange with
`retries - 1`, carrying the sources collected so far; with no retries left
it returns the fixed fallback sentence and an empty source list; a
non-empty text is returned with the deduplicated, capped sources. -/
def chatWithTools (oracle : Nat → RoundOutcome) :
    Nat → Nat → List Source → String × List Source
  | attempt, retries, collectedSources =>
    let out := oracle attempt
    let sources := collectedSources ++ out.roundSources
    let content := attemptText out
    if content = "" then
      match retries with
      | r + 1 => chatWithTools oracle (attempt + 1) r sources
      | 0 => (FALLBACK_RESPONSE, [])
    else (content, uniqueSources sources)

/-- `analyzeForFallacies(text)` (ollama.js lines 186-214): the whole remote
call is wrapped in try/catch; a successful call returns the message content,
any failure returns `null` (modelled as `none`).  The transport outcome is
the explicit argument. -/
def analyzeForFallacies (transport : Except Unit String) : Option String :=
  match transport with
  | Except.ok content => some content
  | Except.error _ => none

/-- `MAX_DISCORD_LENGTH = 500` (ollama.js line 216). -/
def MAX_DISCORD_LENGTH : Nat := 500

/-- `condenseIfNeeded(text, maxLength)` (ollama.js lines 218-252): no-op
when the text fits; otherwise one single-shot compression call whose
outcome is the `transport` argument.  A failed call falls back to
truncating the original text to `maxLength - 3` characters plus `"..."`;
a compressed result still over the limit is truncated the same way. -/
def condenseIfNeeded (text : String) (maxLength : Nat)
    (transport : Except Unit String) : String :=
  if text.length ≤ maxLength then text
  else
    match transport with
    | Except.error _ => strTake text (maxLength - 3) ++ "..."
    | Except.ok content =>
      let condensed := jsTrim content
      if maxLength < condensed.length then
        strTake condensed (maxLength - 3) ++ "..."
      else condensed

/-- One `[title](url)` markdown link (ollama.js line 145). -/
def sourceLink (s : Source) : String :=
  "[" ++ s.title ++ "](" ++ s.url ++ ")"

/-- JS `Array.prototype.join(sep)`. -/
def joinSep (sep : String) : List String → String
  | [] => ""
  | x :: xs => xs.foldl (fun acc y => acc ++ sep ++ y) x

/-- The citation suffix appended after condensing (ollama.js line 146). -/
def citationLine (sources : List Source) : String :=
  "\n\n📎 " ++ joinSep " | " (sources.map sourceLink)

/-- `formatWithSources(result)` (ollama.js lines 130-153): condense the body
to the 500-character default budget, then — without any further length
check — append the citation line when sources are present. -/
def formatWithSources (condenseTransport : Except Unit String)
    (content : String) (sources : List Source) : String :=
  let condensed := condenseIfNeeded content MAX_DISCORD_LENGTH condenseTransport
  if 0 < sources.length then condensed ++ citationLine sources else condensed

/-! ## Message chunking (src/index.js splitMessage) -/

/-- `DISCORD_MAX_LENGTH = 2000` (index.js line 18). -/
def DISCORD_MAX_LENGTH : Nat := 2000

/-- JS `lastIndexOf(pat, pos)` on character lists: the greatest start index
`i ≤ pos` at which `pat` occurs, scanning forward and keeping the latest
match. -/
def lastMatchAux (pat : List Char) (pos : Nat) :
    List Char → Nat → Option Nat → Option Nat
  | [], _, best => best
  | c :: rest, i, best =>
    lastMatchAux pat pos rest (i + 1)
      (if i ≤ pos ∧ pat.isPrefixOf (c :: rest) then some i else best)

/-- JS `remaining.lastIndexOf(pat, pos)` (`none` = `-1`). -/
def jsLastIndexOf (l pat : List Char) (pos : Nat) : Option Nat :=
  lastMatchAux pat pos l 0 none

/-- index.js lines 41-45: word-boundary fallback — `lastIndexOf(' ')`, hard
cut at `maxLength` when there is no space. -/
def wordOrHard (remaining : List Char) (maxLength : Nat) : Nat :=
  match jsLastIndexOf remaining [' '] maxLength with
  | some i => i
  | none => maxLength

/-- index.js lines 38-46: sentence boundary `'. '`, rejected when absent or
before `maxLength / 2` (`2 * i < maxLength` is the exact integer form of
the JS float comparison `i < maxLength / 2`). -/
def sentenceOrWord (remaining : List Char) (maxLength : Nat) : Nat :=
  match jsLastIndexOf remaining ['.', ' '] maxLength with
  | some i => if 2 * i < maxLength then wordOrHard remaining maxLength else i
  | none => wordOrHard remaining maxLength

/-- index.js lines 36-47: paragraph boundary `'\n\n'` first, with the same
half-limit rejection. -/
def splitIndexFor (remaining : List Char) (maxLength : Nat) : Nat :=
  match jsLastIndexOf remaining ['\n', '\n'] maxLength with
  | some i => if 2 * i < maxLength then sentenceOrWord remaining maxLength else i
  | none => sentenceOrWord remaining maxLength

/-- The `while (remaining.length > 0)` loop of `splitMessage` (index.js
lines 29-51).  Each iteration pushes `remaining.substring(0, splitIndex + 1)
.trim()` and continues with `remaining.substring(splitIndex + 1).trim()`;
`fuel` bounds the iteration count (the remainder strictly shrinks, and the
callers pass enough fuel for any input). -/
def splitChunks (maxLength : Nat) : Nat → List Char → List (List Char)
  | 0, _ => []
  | fuel + 1, remaining =>
    if remaining.length = 0 then []
    else if remaining.length ≤ maxLength then [remaining]
    else
      let splitIndex := splitIndexFor remaining maxLength
      trimChars (remaining.take (splitIndex + 1)) ::
        splitChunks maxLength fuel (trimChars (remaining.drop (splitIndex + 1)))

/-- `splitMessage(text, maxLength)` (index.js lines 23-54). -/
def splitMessage (text : String) (maxLength : Nat) : List String :=
  if text.length ≤ maxLength then [text]
  else (splitChunks maxLength (text.length + 1) text.data).map String.mk

/-! ## Spec-side definitions

These definitions follow the wording of spec claims, to be compared with the
source translations above. -/

/-- The non-substantive classifier exactly as claim C4 words it: "the fixed
pattern set applied case-insensitively to the trimmed message: length below
20 characters, OR exact match against the acknowledgement/concession
tokens, OR laughter-only tokens, OR a string of only periods". -/
def claimNonSubstantive (message : String) : Bool :=
  let t := jsTrim (jsToLower message)
  t.length < 20 ||
  (t = "ok" || t = "okay" || t = "sure" || t = "whatever" || t = "fine" ||
    t = "lol" || t = "lmao" || t = "idk" || t = "nah") ||
  (t = "i don\x27t care" || t = "i give up" || t = "you win" || t = "nevermind") ||
  (t = "haha" || t = "hehe" || t = "rofl" || xdToken t) ||
  dotsToken t

/-- The classifier as amended for claim C4: the 20-character minimum applies
to the raw (untrimmed) message, the token patterns to the trimmed
lowercased message, with the apostrophe in "i don't care" optional. -/
def amendedNonSubstantive (message : String) : Bool :=
  let t := jsTrim (jsToLower message)
  message.length < 20 ||
  (t = "ok" || t = "okay" || t = "sure" || t = "whatever" || t = "fine" ||
    t = "lol" || t = "lmao" || t = "idk" || t = "nah") ||
  (t = "i dont care" || t = "i don\x27t care" || t = "i give up" ||
    t = "you win" || t = "nevermind") ||
  (t = "haha" || t = "hehe" || t = "rofl" || xdToken t) ||
  dotsToken t

/-- First-occurrence deduplication of a list of URLs, per the order part of
claim C6's wording. -/
def firstOccurs (l : List String) : List String :=
  l.foldl (fun acc u => if u ∈ acc then acc else acc ++ [u]) []

/-- The last source in the list carrying the given URL (the entry a JS
`Map` rebuild ends up storing). -/
def lastWithUrl (u : String) : List Source → Option Source
  | [] => none
  | s :: rest =>
    match lastWithUrl u rest with
    | some x => some x
    | none => if s.url = u then some s else none

/-- The last value stored under a key, over raw key/value pairs. -/
def lastVal {α : Type} (k : String) : List (String × α) → Option α
  | [] => none
  | p :: rest =>
    match lastVal k rest with
    | some v => some v
    | none => if p.1 = k then some p.2 else none

/-! ## Concrete inputs used by counterexamples and witnesses -/

/-- A session that has already been ended while two fallacies stand. -/
def endedDebate : Debate :=
  { threadId := "t1", participantId := "p1", subject := "pineapple pizza"
    messages := [], status := Status.ended, fallacyCount := 2
    opponentInactiveCount := 0, createdAt := 0, lastActivity := 0 }

/-- A session whose opponent already gave three fallacious turns. -/
def wonDebate : Debate :=
  { threadId := "t2", participantId := "p2", subject := "tabs vs spaces"
    messages := [], status := Status.won, fallacyCount := 3
    opponentInactiveCount := 0, createdAt := 0, lastActivity := 0 }

/-- A fresh active session with a nonzero inactivity streak. -/
def streakDebate : Debate :=
  { threadId := "t3", participantId := "p3", subject := "cats vs dogs"
    messages := [], status := Status.active, fallacyCount := 0
    opponentInactiveCount := 5, createdAt := 0, lastActivity := 0 }

/-- A registry already holding a session under thread id `"t1"`. -/
def regWithT1 : Registry := [("t1", endedDebate)]

/-- A message of raw length 20 whose trimmed form has length 19 and matches
no token pattern. -/
def paddedMessage : String := "hi how are you doin "

/-- Two collected sources sharing a URL but with different titles. -/
def dupSources : List Source :=
  [{ title := "first title", url := "https://a.example" },
   { title := "second title", url := "https://a.example" }]

/-- An oracle whose every attempt returns a null content and no sources. -/
def emptyOracle : Nat → RoundOutcome := fun _ => { content := none, roundSources := [] }

/-- An oracle that fails twice (with sources gathered) and then succeeds. -/
def thirdTryOracle : Nat → RoundOutcome := fun i =>
  match i with
  | 0 => { content := some "  ", roundSources := [{ title := "s0", url := "u0" }] }
  | 1 => { content := none, roundSources := [{ title := "s1", url := "u1" }] }
  | _ => { content := some " final answer ", roundSources := [{ title := "s2", url := "u2" }] }

/-- A 520-character body, used to overflow the 500-character budget. -/
def longBody : String := ⟨List.replicate 520 'b'⟩

/-- A 500-character compression result. -/
def condensedBody : String := ⟨List.replicate 500 'c'⟩

/-- A 2001-character text with no space, period or newline. -/
def hardText : String := ⟨List.replicate 2001 'a'⟩

/-! ## General lemmas about the JS primitives -/

theorem strLength_mk (l : List Char) : (String.mk l).length = l.length := rfl

theorem strLength_data (s : String) : s.length = s.data.length := rfl

theorem length_strTake (s : String) (n : Nat) :
    (strTake s n).length = min n s.length := by
  show (s.data.take n).length = min n s.data.length
  exact List.length_take n s.data

theorem data_append (a b : String) : (a ++ b).data = a.data ++ b.data := rfl

theorem length_strAppend (a b : String) :
    (a ++ b).length = a.length + b.length := by
  show (a ++ b).data.length = a.data.length + b.data.length
  rw [data_append, List.length_append]

/-- `jsMapGet` after `jsMapSet`: the set key reads back the new value, any
other key is untouched. -/
theorem jsMapGet_set {α : Type} (m : List (String × α)) (k : String) (v : α)
    (k' : String) :
    jsMapGet (jsMapSet m k v) k' = if k' = k then some v else jsMapGet m k' := by
  induction m with
  | nil =>
    by_cases h : k' = k
    · simp [jsMapSet, jsMapGet, h]
    · have h2 : ¬ k = k' := fun e => h e.symm
      simp [jsMapSet, jsMapGet, h, h2]
  | cons p rest ih =>
    by_cases hp : p.1 = k
    · by_cases h : k' = k
      · simp [jsMapSet, jsMapGet, hp, h]
      · have h2 : ¬ k = k' := fun e => h e.symm
        have h3 : ¬ p.1 = k' := fun e => h (e.symm.trans hp)
        simp [jsMapSet, jsMapGet, hp, h, h2, h3]
    · by_cases hph : p.1 = k'
      · have h : ¬ k' = k := fun e => hp (hph.trans e)
        simp [jsMapSet, jsMapGet, hp, hph, h]
      · simp [jsMapSet, jsMapGet, hp, hph, ih]

/-- Keys after `jsMapSet`: unchanged when the key was present, appended
otherwise. -/
theorem map_fst_jsMapSet {α : Type} (m : List (String × α)) (k : String) (v : α) :
    (jsMapSet m k v).map Prod.fst =
      (if k ∈ m.map Prod.fst then m.map Prod.fst else m.map Prod.fst ++ [k]) := by
  induction m with
  | nil => simp [jsMapSet]
  | cons p rest ih =>
    by_cases hp : p.1 = k
    · simp [jsMapSet, hp]
    · have : k ∈ p.1 :: rest.map Prod.fst ↔ k ∈ rest.map Prod.fst := by
        constructor
        · intro h
          rcases List.mem_cons.mp h with h | h
          · exact absurd h.symm hp
          · exact h
        · exact fun h => List.mem_cons_of_mem _ h
      by_cases hk : k ∈ rest.map Prod.fst <;>
        simp [jsMapSet, hp, ih, hk, this]

/-- `jsMapSet` preserves key distinctness. -/
theorem nodup_map_fst_jsMapSet {α : Type} (m : List (String × α)) (k : String)
    (v : α) (h : (m.map Prod.fst).Nodup) :
    ((jsMapSet m k v).map Prod.fst).Nodup := by
  rw [map_fst_jsMapSet]
  by_cases hk : k ∈ m.map Prod.fst
  · simpa [hk] using h
  · simp only [if_neg hk]
    refine List.Nodup.append h (List.nodup_singleton k) ?_
    intro a ha hmem
    rw [List.mem_singleton] at hmem
    exact hk (hmem ▸ ha)

/-- Every entry of `jsMapSet m k v` is an old entry or the new pair. -/
theorem mem_jsMapSet {α : Type} (m : List (String × α)) (k : String) (v : α)
    (kv : String × α) (h : kv ∈ jsMapSet m k v) : kv ∈ m ∨ kv = (k, v) := by
  induction m with
  | nil => simpa [jsMapSet] using h
  | cons p rest ih =>
    by_cases hp : p.1 = k
    · simp only [jsMapSet, if_pos hp] at h
      rcases List.mem_cons.mp h with h | h
      · exact Or.inr h
      · exact Or.inl (List.mem_cons_of_mem _ h)
    · simp only [jsMapSet, if_neg hp] at h
      rcases List.mem_cons.mp h with h | h
      · exact Or.inl (h ▸ List.mem_cons_self _ _)
      · rcases ih h with h | h
        · exact Or.inl (List.mem_cons_of_mem _ h)
        · exact Or.inr h

/-- Reading a key of a distinct-keys association list finds the entry that
contains it. -/
theorem jsMapGet_of_mem {α : Type} (m : List (String × α)) (kv : String × α)
    (hmem : kv ∈ m) (hnd : (m.map Prod.fst).Nodup) : jsMapGet m kv.1 = some kv.2 := by
  induction m with
  | nil => simp at hmem
  | cons p rest ih =>
    simp only [List.map_cons, List.nodup_cons] at hnd
    rcases List.mem_cons.mp hmem with h | h
    · subst h
      simp [jsMapGet]
    · have hne : ¬ p.1 = kv.1 := by
        intro he
        exact hnd.1 (he ▸ List.mem_map_of_mem Prod.fst h)
      simpa [jsMapGet, hne] using ih h hnd.2

/-- Keys of a `Map` built by folding `set` over pairs: the first-occurrence
deduplication of the keys of the pairs, appended to the starting keys. -/
theorem map_fst_foldl_jsMapSet {α : Type} (pairs : List (String × α)) :
    ∀ m : List (String × α),
      ((pairs.foldl (fun m kv => jsMapSet m kv.1 kv.2) m).map Prod.fst) =
        pairs.foldl (fun acc kv => if kv.1 ∈ acc then acc else acc ++ [kv.1])
          (m.map Prod.fst) := by
  induction pairs with
  | nil => intro m; rfl
  | cons kv rest ih =>
    intro m
    simp only [List.foldl_cons, ih, map_fst_jsMapSet]

/-- Folding `set` over pairs preserves key distinctness. -/
theorem nodup_foldl_jsMapSet {α : Type} (pairs : List (String × α)) :
    ∀ m : List (String × α), (m.map Prod.fst).Nodup →
      ((pairs.foldl (fun m kv => jsMapSet m kv.1 kv.2) m).map Prod.fst).Nodup := by
  induction pairs with
  | nil => intro m h; exact h
  | cons kv rest ih =>
    intro m h
    exact ih _ (nodup_map_fst_jsMapSet m kv.1 kv.2 h)

/-- Reading a key out of a `Map` built by folding `set`: the last value
stored under that key among the pairs, falling back to the start map. -/
theorem jsMapGet_foldl_jsMapSet {α : Type} (pairs : List (String × α)) :
    ∀ (m : List (String × α)) (k : String),
      jsMapGet (pairs.foldl (fun m kv => jsMapSet m kv.1 kv.2) m) k =
        (match lastVal k pairs with
         | some v => some v
         | none => jsMapGet m k) := by
  induction pairs with
  | nil => intro m k; rfl
  | cons kv rest ih =>
    intro m k
    simp only [List.foldl_cons, ih, lastVal]
    cases h : lastVal k rest with
    | some v => rfl
    | none =>
      rw [jsMapGet_set]
      by_cases hk : k = kv.1
      · simp [hk]
      · have hk2 : ¬ kv.1 = k := fun e => hk e.symm
        simp [hk, hk2]

/-- Folding `set` preserves the "value stores its own key" invariant used
for URL-keyed source maps. -/
theorem url_invariant_foldl (pairs : List (String × Source)) :
    ∀ m : List (String × Source),
      (∀ kv ∈ m, kv.2.url = kv.1) →
      (∀ kv ∈ pairs, kv.2.url = kv.1) →
      ∀ kv ∈ pairs.foldl (fun m kv => jsMapSet m kv.1 kv.2) m, kv.2.url = kv.1 := by
  induction pairs with
  | nil => intro m hm _ kv hkv; exact hm kv hkv
  | cons p rest ih =>
    intro m hm hp kv hkv
    refine ih _ ?_ (fun x hx => hp x (List.mem_cons_of_mem _ hx)) kv hkv
    intro x hx
    rcases mem_jsMapSet m p.1 p.2 x hx with h | h
    · exact hm x h
    · rw [h]
      exact hp p (List.mem_cons_self _ _)

/-- `lastVal` over URL-keyed pairs is `lastWithUrl` over the sources. -/
theorem lastVal_map_url (k : String) (sources : List Source) :
    lastVal k (sources.map (fun s => (s.url, s))) = lastWithUrl k sources := by
  induction sources with
  | nil => rfl
  | cons s rest ih =>
    simp only [List.map_cons, lastVal, lastWithUrl, ih]
    cases lastWithUrl k rest <;> rfl

/-! ## Characterization of the non-opening turn step -/

/-- Full field-level characterization of a processed non-opening turn:
how each counter, the status and the returned text are computed. -/
theorem generateResponseStep_spec (now : Nat) (d : Debate) (msg : String)
    (v : Option String) (resp : String) :
    (generateResponseStep now d msg v resp).1.fallacyCount =
      (if fallacyDetected v then d.fallacyCount + 1 else d.fallacyCount)
    ∧ (generateResponseStep now d msg v resp).1.opponentInactiveCount =
      (if isNonSubstantive msg then d.opponentInactiveCount + 1 else 0)
    ∧ (generateResponseStep now d msg v resp).1.status =
      (if FALLACY_THRESHOLD ≤
            (if fallacyDetected v then d.fallacyCount + 1 else d.fallacyCount)
          ∨ jsIncludes resp VICTORY = true
        then Status.won else d.status)
    ∧ (generateResponseStep now d msg v resp).2 =
      (if jsIncludes resp VICTORY = true
        then jsTrim (jsReplace resp VICTORY "") else resp) := by
  unfold generateResponseStep applyVictoryMarker checkThreshold scoreFallacy scoreInactivity
  split_ifs <;> simp_all <;> omega

/-- No single operation ever produces an `active` status from a non-active
one: every status assignment in the source writes `won` or `ended`. -/
theorem status_applyOp_active (d : Debate) (op : DebateOp)
    (h : (applyOp d op).status = Status.active) : d.status = Status.active := by
  cases op with
  | turn now m v r =>
    have hs := (generateResponseStep_spec now d m v r).2.2.1
    simp only [applyOp] at h
    rw [hs] at h
    split_ifs at h <;> first | exact absurd h (by decide) | exact h
  | opening now => simpa [applyOp, openingStep] using h
  | endOp => simp [applyOp, endDebateSession] at h

/-- Over any operation sequence, an `active` final status implies an
`active` initial status. -/
theorem status_runOps_active (ops : List DebateOp) :
    ∀ d : Debate, (runOps d ops).status = Status.active →
      d.status = Status.active := by
  induction ops with
  | nil => intro d h; exact h
  | cons op rest ih =>
    intro d h
    exact status_applyOp_active d op (ih (applyOp d op) h)

/-- The amended classifier coincides with the source's `isNonSubstantive`. -/
theorem amendedNonSubstantive_eq (m : String) :
    amendedNonSubstantive m = isNonSubstantive m := by
  unfold amendedNonSubstantive isNonSubstantive nonSubstantivePatterns MIN_RESPONSE_LENGTH
  by_cases h : m.length < 20 <;> simp [h]

/-- For a limit of at least 3, `condenseIfNeeded` always fits the limit. -/
theorem condenseIfNeeded_length_le (text : String) (maxLength : Nat)
    (transport : Except Unit String) (h3 : 3 ≤ maxLength) :
    (condenseIfNeeded text maxLength transport).length ≤ maxLength := by
  unfold condenseIfNeeded
  split_ifs with h1
  · exact h1
  · cases transport with
    | error e =>
      simp only [length_strAppend, length_strTake]
      have h4 : (("..." : String)).length = 3 := rfl
      rw [h4]
      omega
    | ok content =>
      dsimp only
      split_ifs with h2
      · simp only [length_strAppend, length_strTake]
        have h4 : (("..." : String)).length = 3 := rfl
        rw [h4]
        omega
      · omega

/-- `lastMatchAux` finds nothing when the pattern's first character does not
occur in the text. -/
theorem lastMatchAux_not_mem (c0 : Char) (t : List Char) :
    ∀ (l : List Char), c0 ∉ l →
      ∀ (pos i : Nat) (best : Option Nat),
        lastMatchAux (c0 :: t) pos l i best = best := by
  intro l
  induction l with
  | nil => intro _ pos i best; rfl
  | cons c rest ih =>
    intro h pos i best
    have hc : ¬ c0 = c := fun e => h (e ▸ List.mem_cons_self c rest)
    have hrest : c0 ∉ rest := fun hr => h (List.mem_cons_of_mem c hr)
    have hpre : List.isPrefixOf (c0 :: t) (c :: rest) = false := by
      simp [List.isPrefixOf, hc]
    simp only [lastMatchAux, hpre]
    rw [if_neg (by simp)]
    exact ih hrest pos (i + 1) best

/-- `jsLastIndexOf` over a uniform text misses any pattern starting with a
different character. -/
theorem jsLastIndexOf_replicate_none (n : Nat) (a c0 : Char) (t : List Char)
    (h : c0 ≠ a) (pos : Nat) :
    jsLastIndexOf (List.replicate n a) (c0 :: t) pos = none := by
  unfold jsLastIndexOf
  refine lastMatchAux_not_mem c0 t _ ?_ pos 0 none
  intro hmem
  exact h (List.eq_of_mem_replicate hmem)

/-- Trimming a run of a non-whitespace character is a no-op. -/
theorem trimChars_replicate (n : Nat) (c : Char) (h : jsIsWhite c = false) :
    trimChars (List.replicate n c) = List.replicate n c := by
  have hdrop : (List.replicate n c).dropWhile jsIsWhite = List.replicate n c := by
    cases n with
    | zero => rfl
    | succ m => simp [List.replicate_succ, List.dropWhile_cons, h]
  unfold trimChars
  rw [hdrop, List.reverse_replicate, hdrop, List.reverse_replicate]

/-- The chunking loop on an exhausted remainder yields no chunks. -/
theorem splitChunks_nil (maxLength fuel : Nat) :
    splitChunks maxLength fuel [] = [] := by
  cases fuel <;> rfl

/-- One unfolding of the chunking loop when fuel remains. -/
theorem splitChunks_succ (maxLength fuel : Nat) (remaining : List Char) :
    splitChunks maxLength (fuel + 1) remaining =
      (if remaining.length = 0 then []
       else if remaining.length ≤ maxLength then [remaining]
       else
         trimChars (remaining.take (splitIndexFor remaining maxLength + 1)) ::
           splitChunks maxLength fuel
             (trimChars (remaining.drop (splitIndexFor remaining maxLength + 1)))) := by
  rfl

/-! ## Claim C1 -/

/-- Claim C1 counterexample: `createDebate` on a registry that already holds
thread id `"t1"` silently changes the stored session — it does not leave the
existing session unchanged, and no error is signaled (the operation has no
failure path at all). -/
theorem c1_counterexample :
    getDebate (createDebate regWithT1 "t1" "bob" "dogs" 5).1 "t1" ≠
      getDebate regWithT1 "t1" := by decide

/-- Claim C1 (amended): `createDebate` never fails; it unconditionally
stores a fresh session under the given thread id — replacing any session
already stored there — returns that fresh session, and leaves every other
registry entry unchanged. -/
theorem c1_createDebate_replaces (reg : Registry) (tid pid subj : String)
    (now : Nat) :
    getDebate (createDebate reg tid pid subj now).1 tid =
      some (newDebate tid pid subj now)
    ∧ (createDebate reg tid pid subj now).2 = newDebate tid pid subj now
    ∧ ∀ other, other ≠ tid →
        getDebate (createDebate reg tid pid subj now).1 other =
          getDebate reg other := by
  refine ⟨?_, rfl, ?_⟩
  · unfold createDebate getDebate
    rw [jsMapGet_set]
    simp
  · intro other hne
    unfold createDebate getDebate
    rw [jsMapGet_set]
    simp [hne]

/-- Witness for the amended C1 at a concrete registry. -/
theorem c1_witness :
    ("t9" : String) ≠ "t1" ∧
      getDebate (createDebate regWithT1 "t1" "bob" "dogs" 5).1 "t9" =
        getDebate regWithT1 "t9" :=
  ⟨by decide, (c1_createDebate_replaces regWithT1 "t1" "bob" "dogs" 5).2.2 "t9" (by decide)⟩

/-! ## Claim C2 -/

/-- Claim C2 counterexample: a session with status `'ended'` and two
standing fallacies, fed one more fallacious turn, moves to `'won'` — the
turn processor never checks the status, so `'ended'` is not terminal. -/
theorem c2_counterexample :
    endedDebate.status = Status.ended ∧
      (applyOp endedDebate
          (DebateOp.turn 1 "a long substantive argument here"
            (some "Ad hominem: attacks the person") "resp")).status =
        Status.won := by decide

/-- Claim C2 (amended): the status never returns to `'active'`: across any
sequence of turn-processing / opening / end operations, an `'active'` final
status implies the session was `'active'` throughout the start, so a
session that reached `'won'` never shows `'active'` again, and `endDebate`
always yields `'ended'`.  However `'ended'` is not absorbing: turn
processing on an ended session can still set `'won'` (see the
counterexample). -/
theorem c2_no_return_to_active (d : Debate) (ops : List DebateOp) :
    ((runOps d ops).status = Status.active → d.status = Status.active)
    ∧ (d.status = Status.won → (runOps d ops).status ≠ Status.active)
    ∧ (applyOp d DebateOp.endOp).status = Status.ended := by
  refine ⟨status_runOps_active ops d, ?_, rfl⟩
  intro hw ha
  have hact := status_runOps_active ops d ha
  rw [hw] at hact
  exact Status.noConfusion hact

/-- Witness for the amended C2 at a concrete won session. -/
theorem c2_witness :
    (runOps wonDebate
        [DebateOp.turn 3 "some long counterargument here" none "fine"]).status ≠
      Status.active
    ∧ (applyOp wonDebate DebateOp.endOp).status = Status.ended :=
  ⟨(c2_no_return_to_active wonDebate
      [DebateOp.turn 3 "some long counterargument here" none "fine"]).2.1 rfl,
    (c2_no_return_to_active wonDebate []).2.2⟩

/-! ## Claim C3 -/

/-- Claim C3 counterexample: an empty-string verdict is non-absent and does
not contain the `"No significant fallacies"` sentinel, yet `fallacyCount`
is not incremented — the JS guard treats the falsy empty string like an
absent verdict. -/
theorem c3_counterexample :
    (some "" ≠ (none : Option String))
    ∧ jsIncludes "" NO_FALLACY_SENTINEL = false
    ∧ (generateResponseStep 1 streakDebate "msg" (some "") "resp").1.fallacyCount
        = streakDebate.fallacyCount := by decide

/-- Claim C3 (amended): per processed non-opening turn, `fallacyCount` is
incremented by exactly 1 when the verdict is non-absent, non-empty and does
not contain the `"No significant fallacies"` sentinel (`fallacyDetected`),
and unchanged otherwise; it never decreases; and whenever the updated count
has reached the threshold 3, the status is `'won'`. -/
theorem c3_fallacyCount (now : Nat) (d : Debate) (msg : String)
    (v : Option String) (resp : String) :
    (generateResponseStep now d msg v resp).1.fallacyCount =
      (if fallacyDetected v then d.fallacyCount + 1 else d.fallacyCount)
    ∧ d.fallacyCount ≤ (generateResponseStep now d msg v resp).1.fallacyCount
    ∧ (FALLACY_THRESHOLD ≤ (generateResponseStep now d msg v resp).1.fallacyCount →
        (generateResponseStep now d msg v resp).1.status = Status.won) := by
  obtain ⟨hc, _, hs, _⟩ := generateResponseStep_spec now d msg v resp
  refine ⟨hc, ?_, ?_⟩
  · rw [hc]
    split <;> omega
  · intro hth
    rw [hc] at hth
    rw [hs, if_pos (Or.inl hth)]

/-- Witness for the amended C3: a third fallacious turn reaches the
threshold and flips the status to `'won'`. -/
theorem c3_witness :
    FALLACY_THRESHOLD ≤
      (generateResponseStep 7 endedDebate "a fully substantive counterpoint"
          (some "Strawman: misrepresents the position") "done").1.fallacyCount
    ∧ (generateResponseStep 7 endedDebate "a fully substantive counterpoint"
          (some "Strawman: misrepresents the position") "done").1.status =
        Status.won :=
  ⟨by decide,
    (c3_fallacyCount 7 endedDebate "a fully substantive counterpoint"
        (some "Strawman: misrepresents the position") "done").2.2 (by decide)⟩

/-! ## Claim C4 -/

/-- Claim C4 counterexample: a message of raw length 20 whose trimmed form
has 19 characters.  Under the claim's classifier (length measured on the
trimmed message) it is non-substantive, so the claim predicts an increment;
the code measures the raw length, classifies it substantive, and resets the
streak to 0 (from 5). -/
theorem c4_counterexample :
    claimNonSubstantive paddedMessage = true
    ∧ isNonSubstantive paddedMessage = false
    ∧ streakDebate.opponentInactiveCount = 5
    ∧ (generateResponseStep 1 streakDebate paddedMessage none "r").1.opponentInactiveCount
        = 0 := by decide

/-- Claim C4 (amended): per processed non-opening turn,
`opponentInactiveCount` is incremented by exactly 1 when the message is
classified non-substantive and reset to exactly 0 otherwise, where the
classification applies the 20-character minimum to the raw (untrimmed)
message and the token / laughter / periods patterns case-insensitively to
the trimmed message (with the apostrophe in "i don't care" optional). -/
theorem c4_inactivityStreak (now : Nat) (d : Debate) (msg : String)
    (v : Option String) (resp : String) :
    (generateResponseStep now d msg v resp).1.opponentInactiveCount =
      (if amendedNonSubstantive msg then d.opponentInactiveCount + 1 else 0) := by
  rw [amendedNonSubstantive_eq]
  exact (generateResponseStep_spec now d msg v resp).2.1

/-! ## Claim C5 -/

/-- Claim C5 counterexample: with limit 0 and a failing compression call,
`condenseIfNeeded` returns the three-character ellipsis, which exceeds the
limit — the "length ≤ N for every limit N" part fails for N < 3. -/
theorem c5_counterexample :
    (condenseIfNeeded "abcd" 0 (Except.error ())).length = 3
    ∧ ¬ ((condenseIfNeeded "abcd" 0 (Except.error ())).length ≤ 0) := by decide

/-- Claim C5 (amended): for every limit N ≥ 3 (which includes both limits
the program uses, 500 and 2000), `condenseIfNeeded` returns a string of
length ≤ N, returns the input unchanged when it already fits, never raises,
and falls back to hard truncation to N-3 characters plus an ellipsis — of
the original text on transport failure, of the compressed text when the
compression result still exceeds N. -/
theorem c5_condense (text : String) (maxLength : Nat)
    (transport : Except Unit String) (h3 : 3 ≤ maxLength) :
    (condenseIfNeeded text maxLength transport).length ≤ maxLength
    ∧ (text.length ≤ maxLength → condenseIfNeeded text maxLength transport = text)
    ∧ (maxLength < text.length →
        condenseIfNeeded text maxLength (Except.error ()) =
          strTake text (maxLength - 3) ++ "...")
    ∧ (∀ c, maxLength < text.length → maxLength < (jsTrim c).length →
        condenseIfNeeded text maxLength (Except.ok c) =
          strTake (jsTrim c) (maxLength - 3) ++ "...") := by
  refine ⟨condenseIfNeeded_length_le text maxLength transport h3, ?_, ?_, ?_⟩
  · intro h
    unfold condenseIfNeeded
    rw [if_pos h]
  · intro h
    unfold condenseIfNeeded
    rw [if_neg (by omega)]
  · intro c h hc
    unfold condenseIfNeeded
    rw [if_neg (by omega)]
    dsimp only
    rw [if_pos hc]

/-- Witness for the amended C5 at the concrete limit 5. -/
theorem c5_witness :
    (condenseIfNeeded "abcdefgh" 5 (Except.error ())).length ≤ 5
    ∧ condenseIfNeeded "ab" 5 (Except.error ()) = "ab" :=
  ⟨(c5_condense "abcdefgh" 5 (Except.error ()) (by decide)).1,
    (c5_condense "ab" 5 (Except.error ()) (by decide)).2.1 (by decide)⟩

/-! ## Claim C6 -/

/-- Claim C6 counterexample: two collected sources share a URL with
different titles; the deduplicated list keeps the *second* title, not the
first — `new Map` overwrites the stored value on a duplicate key while
keeping the first key position, so "first occurrence wins, preserving that
entry's title" is false. -/
theorem c6_counterexample :
    (uniqueSources dupSources).map (fun s => s.title) = ["second title"]
    ∧ dupSources.map (fun s => s.title) = ["first title", "second title"] := by
  decide

/-- Claim C6 (amended): the returned source list has no two entries with
the same URL and has length ≤ 3; each URL keeps its first-occurrence
position (relative order preserved), but the entry stored for a URL — its
title — is the one from that URL's *last* occurrence in the collected
list. -/
theorem c6_uniqueSources (sources : List Source) :
    ((uniqueSources sources).map (fun s => s.url)).Nodup
    ∧ (uniqueSources sources).length ≤ 3
    ∧ (uniqueSources sources).map (fun s => s.url) =
        (firstOccurs (sources.map (fun s => s.url))).take 3
    ∧ ∀ s ∈ uniqueSources sources, lastWithUrl s.url sources = some s := by
  by_cases hlen : 0 < sources.length
  · have hpairs :
        jsMapOfPairs (sources.map (fun s => (s.url, s))) =
          (sources.map (fun s => (s.url, s))).foldl
            (fun m kv => jsMapSet m kv.1 kv.2) [] := rfl
    have hurl : ∀ kv ∈ jsMapOfPairs (sources.map (fun s => (s.url, s))),
        kv.2.url = kv.1 := by
      rw [hpairs]
      refine url_invariant_foldl _ [] (by simp) ?_
      intro kv hkv
      obtain ⟨s, _, rfl⟩ := List.mem_map.mp hkv
      rfl
    have hnd : ((jsMapOfPairs (sources.map (fun s => (s.url, s)))).map
        Prod.fst).Nodup := by
      rw [hpairs]
      exact nodup_foldl_jsMapSet _ [] (by simp)
    have hkeys : (jsMapOfPairs (sources.map (fun s => (s.url, s)))).map
        Prod.fst = firstOccurs (sources.map (fun s => s.url)) := by
      rw [hpairs, map_fst_foldl_jsMapSet]
      unfold firstOccurs
      rw [← List.foldl_map (fun kv : String × Source => kv.1)
        (fun acc u => if u ∈ acc then acc else acc ++ [u])]
      rw [List.map_map]
      rfl
    have hvals : ((jsMapOfPairs (sources.map (fun s => (s.url, s)))).map
          (fun p => p.2)).map (fun s => s.url) =
        (jsMapOfPairs (sources.map (fun s => (s.url, s)))).map Prod.fst := by
      rw [List.map_map]
      exact List.map_congr_left (fun kv hkv => hurl kv hkv)
    have huniq : uniqueSources sources =
        ((jsMapOfPairs (sources.map (fun s => (s.url, s)))).map
          (fun p => p.2)).take 3 := by
      unfold uniqueSources
      rw [if_pos hlen]
    refine ⟨?_, ?_, ?_, ?_⟩
    · rw [huniq, List.map_take, hvals]
      exact List.Nodup.sublist (List.take_sublist 3 _) hnd
    · rw [huniq, List.length_take]
      exact min_le_left 3 _
    · rw [huniq, List.map_take, hvals, hkeys]
    · intro s hs
      rw [huniq] at hs
      have hs2 := (List.take_sublist 3 _).subset hs
      obtain ⟨kv, hkv, hkv2⟩ := List.mem_map.mp hs2
      have hget := jsMapGet_of_mem _ kv hkv hnd
      have hfold := jsMapGet_foldl_jsMapSet
        (sources.map (fun s : Source => (s.url, s))) [] kv.1
      rw [← hpairs, hget] at hfold
      have hlast : lastVal kv.1 (sources.map (fun s => (s.url, s))) =
          some kv.2 := by
        cases h : lastVal kv.1 (sources.map (fun s => (s.url, s))) with
        | none => rw [h] at hfold; simp [jsMapGet] at hfold
        | some v => rw [h] at hfold; simpa using hfold.symm
      rw [← hkv2, hurl kv hkv, ← lastVal_map_url, hlast, hkv2]
  · have h0 : sources = [] := List.length_eq_zero.mp (by omega)
    subst h0
    simp [uniqueSources, firstOccurs]

/-- Witness for the amended C6 at the concrete duplicated-URL input. -/
theorem c6_witness :
    ({ title := "second title", url := "https://a.example" } : Source) ∈
      uniqueSources dupSources
    ∧ lastWithUrl "https://a.example" dupSources =
        some { title := "second title", url := "https://a.example" } := by
  refine ⟨by decide, ?_⟩
  have h := (c6_uniqueSources dupSources).2.2.2
    { title := "second title", url := "https://a.example" } (by decide)
  exact h

/-! ## Claim C7 -/

/-- Claim C7: an empty (or whitespace-only, or null) reply text retries the
whole exchange up to 2 more times, carrying the sources already collected
into each retry; a non-empty text at any attempt returns that text with the
deduplicated union of all sources collected so far; after three empty
attempts the call returns the fixed fallback sentence and an empty source
list (and, being a total function of the oracle outcomes, this path raises
nothing). -/
theorem c7_retry_fallback (oracle : Nat → RoundOutcome) :
    (attemptText (oracle 0) ≠ "" →
      chatWithTools oracle 0 2 [] =
        (attemptText (oracle 0), uniqueSources (oracle 0).roundSources))
    ∧ (attemptText (oracle 0) = "" → attemptText (oracle 1) ≠ "" →
      chatWithTools oracle 0 2 [] =
        (attemptText (oracle 1),
          uniqueSources ((oracle 0).roundSources ++ (oracle 1).roundSources)))
    ∧ (attemptText (oracle 0) = "" → attemptText (oracle 1) = "" →
        attemptText (oracle 2) ≠ "" →
      chatWithTools oracle 0 2 [] =
        (attemptText (oracle 2),
          uniqueSources ((oracle 0).roundSources ++ (oracle 1).roundSources ++
            (oracle 2).roundSources)))
    ∧ (attemptText (oracle 0) = "" → attemptText (oracle 1) = "" →
        attemptText (oracle 2) = "" →
      chatWithTools oracle 0 2 [] = (FALLBACK_RESPONSE, [])) := by
  refine ⟨?_, ?_, ?_, ?_⟩
  · intro h0
    simp [chatWithTools, h0]
  · intro h0 h1
    simp [chatWithTools, h0, h1]
  · intro h0 h1 h2
    simp [chatWithTools, h0, h1, h2, List.append_assoc]
  · intro h0 h1 h2
    simp [chatWithTools, h0, h1, h2]

/-- Witness for C7: three null attempts yield the fallback with no sources;
two failures followed by a successful attempt yield its trimmed text with
all three rounds' sources deduplicated. -/
theorem c7_witness :
    chatWithTools emptyOracle 0 2 [] = (FALLBACK_RESPONSE, [])
    ∧ chatWithTools thirdTryOracle 0 2 [] =
        ("final answer",
          [{ title := "s0", url := "u0" }, { title := "s1", url := "u1" },
            { title := "s2", url := "u2" }]) := by
  refine ⟨(c7_retry_fallback emptyOracle).2.2.2 (by decide) (by decide) (by decide), ?_⟩
  rw [(c7_retry_fallback thirdTryOracle).2.2.1 (by decide) (by decide) (by decide)]
  decide

/-! ## Claim C8 -/

/-- Claim C8 is right about the intent and the code is off by one: on a
2001-character text with no space, period or newline, `splitMessage` with
the 2000-character platform limit returns a *single* chunk equal to the
whole text — one chunk instead of at least two, and 2001 > 2000 characters
long, contradicting the function's own "chunks that fit Discord's limit"
doc comment.  (`substring(0, splitIndex + 1)` with the hard-cut
`splitIndex = maxLength` keeps `maxLength + 1` characters.) -/
theorem c8_splitMessage_bug :
    splitMessage hardText DISCORD_MAX_LENGTH = [hardText]
    ∧ hardText.length = 2001
    ∧ DISCORD_MAX_LENGTH < hardText.length := by
  have hlenr : (List.replicate 2001 'a').length = 2001 := by
    rw [List.length_replicate]
  have hlen : hardText.length = 2001 := hlenr
  refine ⟨?_, hlen, by rw [hlen]; decide⟩
  show splitMessage hardText 2000 = [hardText]
  have hnl : jsLastIndexOf (List.replicate 2001 'a') ['\n', '\n'] 2000 = none :=
    jsLastIndexOf_replicate_none 2001 'a' '\n' ['\n'] (by decide) 2000
  have hdot : jsLastIndexOf (List.replicate 2001 'a') ['.', ' '] 2000 = none :=
    jsLastIndexOf_replicate_none 2001 'a' '.' [' '] (by decide) 2000
  have hsp : jsLastIndexOf (List.replicate 2001 'a') [' '] 2000 = none :=
    jsLastIndexOf_replicate_none 2001 'a' ' ' [] (by decide) 2000
  have hsi : splitIndexFor (List.replicate 2001 'a') 2000 = 2000 := by
    unfold splitIndexFor sentenceOrWord wordOrHard
    rw [hnl, hdot, hsp]
  have htake : (List.replicate 2001 'a').take (2000 + 1) = List.replicate 2001 'a' := by
    apply List.take_of_length_le
    rw [List.length_replicate]
  have hdrop : (List.replicate 2001 'a').drop (2000 + 1) = [] := by
    apply List.drop_eq_nil_of_le
    rw [List.length_replicate]
  unfold splitMessage
  rw [if_neg (by rw [hlen]; decide)]
  rw [hlen]
  have hdata : hardText.data = List.replicate 2001 'a' := rfl
  rw [hdata]
  rw [show (2001 + 1 : Nat) = 2001 + 1 from rfl, splitChunks_succ, hlenr]
  rw [if_neg (by decide), if_neg (by decide), hsi, htake, hdrop,
    trimChars_replicate 2001 'a' (by decide)]
  rw [show trimChars [] = [] from rfl]
  rw [splitChunks_nil]
  rfl

/-! ## Claim C9 -/

/-- Claim C9: a failed fallacy-analysis call returns an absent verdict
(`null`) instead of raising, and a turn processed with an absent verdict
leaves `fallacyCount` unchanged, only reaches `'won'` through the
pre-existing count or the victory marker in the generated text — never
through the failed analysis — and returns the generated text normally. -/
theorem c9_analysis_failure (now : Nat) (d : Debate) (msg resp : String) :
    analyzeForFallacies (Except.error ()) = none
    ∧ (generateResponseStep now d msg none resp).1.fallacyCount = d.fallacyCount
    ∧ (generateResponseStep now d msg none resp).1.status =
        (if FALLACY_THRESHOLD ≤ d.fallacyCount ∨ jsIncludes resp VICTORY = true
          then Status.won else d.status)
    ∧ (generateResponseStep now d msg none resp).2 =
        (if jsIncludes resp VICTORY = true
          then jsTrim (jsReplace resp VICTORY "") else resp) := by
  obtain ⟨hc, _, hs, ht⟩ := generateResponseStep_spec now d msg none resp
  refine ⟨rfl, ?_, ?_, ht⟩
  · simpa [fallacyDetected] using hc
  · simpa [fallacyDetected] using hs

/-! ## Claim C10 -/

/-- Claim C10: when sources are present, the generated-turn post-processing
is exactly "condense the body to the 500-character budget, then append the
citation line with no further length check" — so the returned text's length
is the condensed length (≤ 500) plus the full citation line's length, which
can exceed the 500-character budget by the citation line, and the citation
line itself is never truncated (it appears intact after the body). -/
theorem c10_formatWithSources (transport : Except Unit String)
    (content : String) (sources : List Source) (hne : sources ≠ []) :
    formatWithSources transport content sources =
      condenseIfNeeded content MAX_DISCORD_LENGTH transport ++ citationLine sources
    ∧ (condenseIfNeeded content MAX_DISCORD_LENGTH transport).length ≤
        MAX_DISCORD_LENGTH
    ∧ (formatWithSources transport content sources).length =
        (condenseIfNeeded content MAX_DISCORD_LENGTH transport).length +
          (citationLine sources).length := by
  have hlen : 0 < sources.length := List.length_pos.mpr hne
  have heq : formatWithSources transport content sources =
      condenseIfNeeded content MAX_DISCORD_LENGTH transport ++
        citationLine sources := by
    unfold formatWithSources
    rw [if_pos hlen]
  refine ⟨heq, condenseIfNeeded_length_le _ _ _ (by decide), ?_⟩
  rw [heq, length_strAppend]

/-- Witness for C10: a 520-character body compressed to exactly 500
characters, with one source, yields a 510-character message — over the
500-character budget by the intact 10-character citation line. -/
theorem c10_witness :
    formatWithSources (Except.ok condensedBody) longBody
        [{ title := "t", url := "u" }] =
      condenseIfNeeded longBody MAX_DISCORD_LENGTH (Except.ok condensedBody) ++
        citationLine [{ title := "t", url := "u" }]
    ∧ MAX_DISCORD_LENGTH <
        (formatWithSources (Except.ok condensedBody) longBody
            [{ title := "t", url := "u" }]).length := by
  have h := c10_formatWithSources (Except.ok condensedBody) longBody
    [{ title := "t", url := "u" }] (by decide)
  refine ⟨h.1, ?_⟩
  rw [h.2.2]
  have hjt : jsTrim condensedBody = condensedBody := by
    show (⟨trimChars condensedBody.data⟩ : String) = condensedBody
    rw [show condensedBody.data = List.replicate 500 'c' from rfl,
      trimChars_replicate 500 'c' (by decide)]
    rfl
  have hblen : longBody.length = 520 := by
    show (List.replicate 520 'b').length = 520
    rw [List.length_replicate]
  have hclen : condensedBody.length = 500 := by
    show (List.replicate 500 'c').length = 500
    rw [List.length_replicate]
  have hcond : condenseIfNeeded longBody MAX_DISCORD_LENGTH
      (Except.ok condensedBody) = condensedBody := by
    unfold condenseIfNeeded
    rw [if_neg (by rw [hblen]; decide)]
    dsimp only
    rw [hjt, if_neg (by rw [hclen]; decide)]
  rw [hcond, hclen]
  have hcit : (citationLine [({ title := "t", url := "u" } : Source)]).length = 10 := by
    decide
  rw [hcit]
  decide

end JbDebate
